import Mathlib

/-!
# Shallow embedding of `paxml/eval_lib.py`

This file embeds, in Lean 4, the control-flow and data-flow of the
evaluation/decode orchestration core of `paxml/eval_lib.py`, and proves
properties of the embedding.  Each Python function relevant to a property is
translated into an executable Lean definition; device tensors, summary
writers and logging are abstracted away, while every branch, counter and
loop of the orchestration logic is kept.

Conventions:
* Python exceptions are modelled as explicit constructors of result types.
* Metric values are modelled as rationals (`ℚ`); the Python comparisons on
  doubles in the modelled code are order comparisons, exactly mirrored on `ℚ`.
* Multi-host execution is modelled by an explicit `processIndex : Nat`
  argument; `multihost_utils.broadcast_one_to_all` is modelled by making
  every host consume the value computed at host 0.
-/

namespace EvalLib

/-! ## `_can_load_written_outputs` (eval_lib.py lines 101-112)

Host 0 tries `io_utils.load_outputs(...)`; on success `success[0]` is set to
`len(outputs)`, on any exception it stays `0`.  The `success` array is then
broadcast from host 0 to all hosts, and the function returns `out[0] > 0`.
`loadResult` is the outcome of `io_utils.load_outputs` at host 0:
`some n` means the call returned `n` outputs, `none` means it raised. -/

def canLoadSuccessValue (loadResult : Option Nat) : Nat :=
  match loadResult with
  | some n => n
  | none => 0

def broadcastOneToAll (valueAtHost0 : Nat) : Nat := valueAtHost0

def canLoadWrittenOutputs (processIndex : Nat) (loadResult : Option Nat) : Bool :=
  -- only host 0 computes `success`; all hosts use the broadcast value
  let _ := processIndex
  decide (broadcastOneToAll (canLoadSuccessValue loadResult) > 0)

/-! ## The per-split while-loop of `run_eval_loop_over_test_splits`
(eval_lib.py lines 524-542)

```
step_num = 0
while num_split_steps < 0 or step_num < num_split_steps:
  step_num += 1
  try:
    eval_inputs = model_inputs[split].get_next_padded()
  except (tf.errors.OutOfRangeError, StopIteration):
    if num_split_steps > 0:
      raise
    model_inputs[split].reset()
    break
  ... run eval step on the batch ...
```

`avail` is the number of batches the iterator can still produce before it
raises `OutOfRangeError`.  `raised k` means the exception escaped the loop
(and the whole function) on the `k`-th `get_next_padded` call; `finished s r`
means the loop terminated normally with `step_num = s`, with `r` recording
whether `reset()` was called.  The recursion is structural on `avail`. -/

inductive SplitRunResult where
  | raised (failedCall : Nat)
  | finished (stepNum : Nat) (didReset : Bool)
  deriving DecidableEq, Repr

def runSplitFrom (budget : Int) (avail : Nat) (stepNum : Nat) : SplitRunResult :=
  if budget < 0 ∨ (stepNum : Int) < budget then
    match avail with
    | 0 =>
      if budget > 0 then .raised (stepNum + 1)
      else .finished (stepNum + 1) true
    | a + 1 => runSplitFrom budget a (stepNum + 1)
  else
    .finished stepNum false

def runSplit (budget : Int) (avail : Nat) : SplitRunResult :=
  runSplitFrom budget avail 0

/-- Number of `get_next_padded` calls the loop makes: `step_num` is
incremented exactly once immediately before each call, so it equals the
final `step_num` (in the `raised` case, the index of the failing call). -/
def SplitRunResult.getNextCalls : SplitRunResult → Nat
  | .raised k => k
  | .finished s _ => s

/-! ## `run_eval_loop_over_test_splits` across splits
(eval_lib.py lines 509-620)

Per split: the skip check appends `(None, None, 0)` and `continue`s; otherwise
the while-loop above runs, and afterwards the function appends
`as_float_dict(metrics)` (a value computed from the consumed batches, modelled
here by the count of consumed batches), the optional seqio scoring metrics,
and `step_num` — note the code appends the final `step_num`, not the number of
successfully consumed batches.  A `raised` split propagates the exception out
of the whole function (modelled by `none`). -/

structure SplitState where
  /-- host-0 outcome of `io_utils.load_outputs` for the outputs of this split -/
  loadResult : Option Nat
  /-- `num_split_steps` for this split -/
  budget : Int
  /-- batches available before the iterator raises -/
  avail : Nat
  /-- `seqio_input.should_process_outputs(...)` for this split -/
  needsScoring : Bool
  deriving DecidableEq, Repr

structure EvalLoopOutput where
  /-- `eval_metrics_list`: `none` = skipped, `some k` = metrics folded from `k` batches -/
  metricsList : List (Option Nat)
  /-- `eval_scoring_metrics_list` -/
  scoringList : List (Option Nat)
  /-- `num_eval_steps` -/
  numEvalSteps : List Nat
  /-- per-split count of `get_next_padded` calls -/
  getNextCallsList : List Nat
  deriving DecidableEq, Repr

def consumedOf : SplitRunResult → Nat
  | .raised k => k - 1
  | .finished s r => if r then s - 1 else s

def runEvalLoopOverTestSplits : List SplitState → Option EvalLoopOutput
  | [] => some ⟨[], [], [], []⟩
  | sp :: rest =>
    if canLoadWrittenOutputs 0 sp.loadResult then
      match runEvalLoopOverTestSplits rest with
      | none => none
      | some out =>
        some ⟨none :: out.metricsList, none :: out.scoringList,
              0 :: out.numEvalSteps, 0 :: out.getNextCallsList⟩
    else
      match runSplit sp.budget sp.avail with
      | .raised _ => none
      | .finished stepNum didReset =>
        match runEvalLoopOverTestSplits rest with
        | none => none
        | some out =>
          let consumed := consumedOf (.finished stepNum didReset)
          some ⟨some consumed :: out.metricsList,
                (if sp.needsScoring then some consumed else none) :: out.scoringList,
                stepNum :: out.numEvalSteps,
                (SplitRunResult.finished stepNum didReset).getNextCalls
                  :: out.getNextCallsList⟩

/-! ## `_EvalCheckpointer.wait_for_new_step` (eval_lib.py lines 230-239)

```
new_checkpoint_step = self.retrieve_latest_checkpoint_step()
while new_checkpoint_step == last_checkpoint_step:
  time.sleep(60)
  new_checkpoint_step = self.retrieve_latest_checkpoint_step()
assert new_checkpoint_step is not None
return new_checkpoint_step
```

`polls k` is the value the `k`-th call of `retrieve_latest_checkpoint_step`
returns (`none` = no checkpoint).  `fuel` bounds how many polls we unfold;
`stillPolling` means the loop had not exited within `fuel` polls. -/

inductive WaitResult where
  | stillPolling
  | assertFailed
  | returned (step : Int)
  deriving DecidableEq, Repr

def waitForNewStepFrom (polls : Nat → Option Int) (lastStep : Option Int) :
    Nat → Nat → WaitResult
  | _, 0 => .stillPolling
  | k, fuel + 1 =>
    let new := polls k
    if new = lastStep then
      waitForNewStepFrom polls lastStep (k + 1) fuel
    else
      match new with
      | none => .assertFailed
      | some s => .returned s

def waitForNewStep (polls : Nat → Option Int) (lastStep : Option Int)
    (fuel : Nat) : WaitResult :=
  waitForNewStepFrom polls lastStep 0 fuel

/-! ## `_merge_clu_metrics` (eval_lib.py lines 1191-1203)

```
if metrics:
  if set(metrics.keys()) != set(updated_metrics.keys()):
    raise ValueError(...)
  for key in metrics:
    metrics[key] = metrics[key].merge(updated_metrics[key])
else:
  metrics = updated_metrics
return metrics
```

A metrics dict is modelled as an association list over `String` keys with
values in an arbitrary accumulator type `Acc`; `accMerge` models the opaque
`clu` accumulator `merge` method. -/

def dictKeys {Acc : Type} (m : List (String × Acc)) : List String := m.map Prod.fst

def keySetEq {Acc : Type} (m u : List (String × Acc)) : Bool :=
  (dictKeys m).all (fun k => (dictKeys u).contains k) &&
    (dictKeys u).all (fun k => (dictKeys m).contains k)

inductive MergeResult (Acc : Type) where
  | raisedValueError
  | merged (m : List (String × Acc))
  deriving DecidableEq, Repr

def mergeCluMetrics {Acc : Type} (accMerge : Acc → Acc → Acc)
    (metrics updatedMetrics : List (String × Acc)) : MergeResult Acc :=
  if metrics.isEmpty then
    .merged updatedMetrics
  else if keySetEq metrics updatedMetrics then
    .merged (metrics.map (fun p =>
      (p.1, match updatedMetrics.lookup p.1 with
            | some b => accMerge p.2 b
            | none => p.2)))
  else
    .raisedValueError

/-! ## `_maybe_update_tracked_metric` (eval_lib.py lines 2093-2150)

The persisted tracker state is `some v` (a status file storing `v`) or
`none` (absent); `MetricTracker(..., initial_metric_value=i).metric_value`
reads the stored value, falling back to the initial value.  `sys.float_info.max`
is the largest double, `2^1024 - 2^971`.  The function acts only on host 0;
it updates the tracker (and optionally saves a checkpoint) exactly when the
new value strictly improves under the MIN/MAX policy. -/

inductive TrackMode where
  | min
  | max
  deriving DecidableEq, Repr

def floatInfoMax : ℚ := 2 ^ 1024 - 2 ^ 971

def trackerInitialValue (minOrMax : TrackMode) : ℚ :=
  match minOrMax with
  | .min => floatInfoMax
  | .max => -floatInfoMax

def trackerMetricValue (minOrMax : TrackMode) (stored : Option ℚ) : ℚ :=
  match stored with
  | some v => v
  | none => trackerInitialValue minOrMax

structure TrackerEffect where
  /-- tracker state after the call (`some v` = status file stores `v`) -/
  stored : Option ℚ
  /-- whether `tracker.update(...)` ran -/
  didUpdate : Bool
  /-- whether `checkpoints.save_checkpoint(...)` ran -/
  didSaveCheckpoint : Bool
  deriving DecidableEq, Repr

def maybeUpdateTrackedMetric (processIndex : Nat) (mValue : ℚ)
    (minOrMax : TrackMode) (enableCheckpointSaving : Bool)
    (stored : Option ℚ) : TrackerEffect :=
  if processIndex = 0 then
    let cur := trackerMetricValue minOrMax stored
    if (minOrMax = .min ∧ mValue < cur) ∨ (minOrMax = .max ∧ mValue > cur) then
      { stored := some mValue, didUpdate := true,
        didSaveCheckpoint := enableCheckpointSaving }
    else
      { stored := stored, didUpdate := false, didSaveCheckpoint := false }
  else
    { stored := stored, didUpdate := false, didSaveCheckpoint := false }

/-- Repeated calls of `_maybe_update_tracked_metric` with a list of new metric
values against the same tracker directory; returns the final stored state and
the per-call `didUpdate` flags in call order. -/
def runTrackerUpdates (processIndex : Nat) (minOrMax : TrackMode)
    (enableCheckpointSaving : Bool) :
    List ℚ → Option ℚ → Option ℚ × List Bool
  | [], stored => (stored, [])
  | v :: rest, stored =>
    let eff := maybeUpdateTrackedMetric processIndex v minOrMax
      enableCheckpointSaving stored
    let tail := runTrackerUpdates processIndex minOrMax enableCheckpointSaving
      rest eff.stored
    (tail.1, eff.didUpdate :: tail.2)

/-! ## `_find_and_maybe_update_tracked_metric` (eval_lib.py lines 2153-2192)

```
if not track_min_or_max: raise ValueError(...)
m_value = None
for d in decode_metrics_list:
  if tracked_metric in d:
    m_value = d[tracked_metric]
    break
if m_value:
  ... _maybe_update_tracked_metric(m_value, ...)
else:
  logging.info("Cannot track metric ...")
```

The `if m_value:` guard tests Python truthiness of the found float, which is
false both for `None` and for `0.0`. -/

def findTrackedMetricValue (trackedMetric : String) :
    List (List (String × ℚ)) → Option ℚ
  | [] => none
  | d :: rest =>
    match d.lookup trackedMetric with
    | some v => some v
    | none => findTrackedMetricValue trackedMetric rest

inductive TrackAction where
  | raisedValueError
  | invokedTracking (mValue : ℚ)
  | loggedCannotTrack
  deriving DecidableEq, Repr

def findAndMaybeUpdateTrackedMetric (trackedMetric : String)
    (trackMinOrMax : Option TrackMode)
    (decodeMetricsList : List (List (String × ℚ))) : TrackAction :=
  match trackMinOrMax with
  | none => .raisedValueError
  | some _ =>
    match findTrackedMetricValue trackedMetric decodeMetricsList with
    | some v => if v ≠ 0 then .invokedTracking v else .loggedCannotTrack
    | none => .loggedCannotTrack

/-! ## Output-write guards
(`_get_filename` lines 94-98, `_maybe_write_scoring_outputs` lines 115-128,
the write block of `decode_once_pmap_model` lines 1579-1587, and the write
block of `decode_once_spmd_model` lines 1979-1985)

File-system side effects are recorded as an explicit effect list.  Each write
site first creates the output directory, then writes the full record set. -/

def getFilename (stepNum : Nat) (pfx : String) (processIndex : Nat) : String :=
  pfx ++ "_out_" ++ toString stepNum ++ "_shard_" ++ toString processIndex

inductive FsEffect where
  | mkdirParents (path : String)
  | writeKeyValuePairs (path : String) (numEntries : Nat)
  deriving DecidableEq, Repr

def maybeWriteScoringOutputs (processIndex : Nat)
    (onlyAggregateSummaries : Bool) (outputDir : String) (stepNum : Nat)
    (numScoringOutputs : Nat) : List FsEffect :=
  if processIndex ≠ 0 ∨ onlyAggregateSummaries then
    []
  else
    let fqFname := outputDir ++ "/" ++ getFilename stepNum "eval" processIndex
    [.mkdirParents outputDir, .writeKeyValuePairs fqFname numScoringOutputs]

/-- The per-split write block plus the unconditional metrics aggregation that
follows it in `decode_once_pmap_model` (lines 1579-1599): the guarded write
happens only on host 0, while `merged_decode_metrics` is computed and appended
on every host.  `mergedMetrics` stands for the already-computed
`update_float_dict(as_float_dict(decode_metric_dict), as_float_dict(metric_values))`. -/
def decodeOncePmapWriteBlock (processIndex : Nat)
    (onlyAggregateSummaries : Bool) (dirPath outputFile : String)
    (numProcessedDecodes : Nat) (mergedMetrics : List (String × ℚ)) :
    List FsEffect × List (String × ℚ) :=
  if processIndex = 0 ∧ ¬ onlyAggregateSummaries then
    ([.mkdirParents dirPath, .writeKeyValuePairs outputFile numProcessedDecodes],
     mergedMetrics)
  else
    ([], mergedMetrics)

/-- The per-split write block plus the unconditional metrics aggregation that
follows it in `decode_once_spmd_model` (lines 1979-1999). -/
def decodeOnceSpmdWriteBlock (processIndex : Nat) (dirPath outputFile : String)
    (numProcessedDecodes : Nat) (mergedMetrics : List (String × ℚ)) :
    List FsEffect × List (String × ℚ) :=
  if processIndex = 0 then
    ([.mkdirParents dirPath, .writeKeyValuePairs outputFile numProcessedDecodes],
     mergedMetrics)
  else
    ([], mergedMetrics)

/-! ## `_common_eval_or_decode_loop` (eval_lib.py lines 2010-2090)

```
while True:
  ... decode_once_fn (if input_p) ...
  ... eval_one_step_fn ...
  if not continuous_decode: break
  if last_checkpoint_step is not None:
    exceeded_ckpt = last_checkpoint_step + task_p.train.save_interval_steps
    is_last_ckpt = exceeded_ckpt > task_p.train.num_train_steps
    if tuning_lib.should_early_stop(...): break
    if is_last_ckpt: break
  jax.tree_util.tree_map(lambda x: x.delete(), partitioned_train_state)
  del partitioned_train_state
  new_checkpoint_step = checkpointer.wait_for_new_step(last_checkpoint_step)
  partitioned_train_state = checkpointer.load_checkpoint_for_step(...)
  last_checkpoint_step = new_checkpoint_step
```

`earlyStop s isLast` models `tuning_lib.should_early_stop(early_stopping_fn,
s, isLast, ...)`; `newSteps k` models the step returned by the `k`-th
`wait_for_new_step` call.  The observable behaviour of the loop is recorded as a
trace of events. -/

inductive StopReason where
  | notContinuous
  | earlyStopped
  | lastCheckpoint
  deriving DecidableEq, Repr

def isLastCkpt (stepNum saveIntervalSteps numTrainSteps : Int) : Bool :=
  decide (stepNum + saveIntervalSteps > numTrainSteps)

def loopDecide (continuousDecode : Bool) (lastCheckpointStep : Option Int)
    (saveIntervalSteps numTrainSteps : Int)
    (earlyStop : Int → Bool → Bool) : Option StopReason :=
  if ¬ continuousDecode then
    some .notContinuous
  else
    match lastCheckpointStep with
    | some s =>
      let isLast := isLastCkpt s saveIntervalSteps numTrainSteps
      if earlyStop s isLast then some .earlyStopped
      else if isLast then some .lastCheckpoint
      else none
    | none => none

inductive LoopEvent where
  | ranDecode (lastCheckpointStep : Option Int)
  | ranEval (lastCheckpointStep : Option Int)
  | releasedTrainState
  | waitedForNewStep
  | loadedCheckpoint (stepNum : Int)
  | stopped (why : StopReason)
  deriving DecidableEq, Repr

def loopIterationBody (hasDecodeInputs : Bool)
    (lastCheckpointStep : Option Int) : List LoopEvent :=
  (if hasDecodeInputs then [LoopEvent.ranDecode lastCheckpointStep] else [])
    ++ [LoopEvent.ranEval lastCheckpointStep]

def commonEvalOrDecodeLoop (continuousDecode hasDecodeInputs : Bool)
    (saveIntervalSteps numTrainSteps : Int) (earlyStop : Int → Bool → Bool)
    (newSteps : Nat → Int) :
    Option Int → Nat → Nat → List LoopEvent
  | _, _, 0 => []
  | lastCheckpointStep, k, fuel + 1 =>
    let body := loopIterationBody hasDecodeInputs lastCheckpointStep
    match loopDecide continuousDecode lastCheckpointStep saveIntervalSteps
        numTrainSteps earlyStop with
    | some why => body ++ [LoopEvent.stopped why]
    | none =>
      let s' := newSteps k
      body ++ [LoopEvent.releasedTrainState, LoopEvent.waitedForNewStep,
               LoopEvent.loadedCheckpoint s']
        ++ commonEvalOrDecodeLoop continuousDecode hasDecodeInputs
             saveIntervalSteps numTrainSteps earlyStop newSteps (some s')
             (k + 1) fuel

/-- Count of eval-pass events in a trace (one per loop iteration). -/
def countEvalRuns (trace : List LoopEvent) : Nat :=
  trace.countP (fun e => match e with | .ranEval _ => true | _ => false)

/-! ## Lemmas about the per-split while-loop -/

lemma runSplitFrom_neg (budget : Int) (hb : budget < 0) :
    ∀ (avail stepNum : Nat),
      runSplitFrom budget avail stepNum = .finished (stepNum + avail + 1) true := by
  intro avail
  induction avail with
  | zero =>
    intro s
    unfold runSplitFrom
    rw [if_pos (Or.inl hb), if_neg (by omega)]
  | succ a ih =>
    intro s
    unfold runSplitFrom
    rw [if_pos (Or.inl hb)]
    have := ih (s + 1)
    simpa [Nat.add_assoc, Nat.add_comm, Nat.add_left_comm] using this

lemma runSplitFrom_budget_reached (N : Nat) :
    ∀ (avail stepNum : Nat), stepNum ≤ N → N - stepNum ≤ avail →
      runSplitFrom (N : Int) avail stepNum = .finished N false := by
  intro avail
  induction avail with
  | zero =>
    intro s hs hle
    have hsN : s = N := by omega
    subst hsN
    unfold runSplitFrom
    rw [if_neg (by omega)]
  | succ a ih =>
    intro s hs hle
    by_cases hlt : s < N
    · unfold runSplitFrom
      rw [if_pos (Or.inr (by exact_mod_cast hlt))]
      exact ih (s + 1) (by omega) (by omega)
    · have hsN : s = N := by omega
      subst hsN
      unfold runSplitFrom
      rw [if_neg (by omega)]

lemma runSplitFrom_exhausted_pos (N : Nat) :
    ∀ (avail stepNum : Nat), stepNum + avail < N →
      runSplitFrom (N : Int) avail stepNum = .raised (stepNum + avail + 1) := by
  intro avail
  induction avail with
  | zero =>
    intro s hs
    unfold runSplitFrom
    rw [if_pos (Or.inr (by exact_mod_cast (by omega : s < N))),
      if_pos (by exact_mod_cast (by omega : 0 < N))]
  | succ a ih =>
    intro s hs
    unfold runSplitFrom
    rw [if_pos (Or.inr (by exact_mod_cast (by omega : s < N)))]
    have := ih (s + 1) (by omega)
    simpa [Nat.add_assoc, Nat.add_comm, Nat.add_left_comm] using this

lemma runEvalLoop_single_raises (sp : SplitState)
    (hload : canLoadWrittenOutputs 0 sp.loadResult = false)
    (k : Nat) (hrun : runSplit sp.budget sp.avail = .raised k) :
    runEvalLoopOverTestSplits [sp] = none := by
  unfold runEvalLoopOverTestSplits
  rw [if_neg (by simp [hload]), hrun]

/-- C1: for a split with a fixed step budget `N ≥ 0`, the split loop performs
exactly `N` batches when the data suffices (final `step_num = N`, no `reset`),
and if the iterator has only `avail < N` batches then the `OutOfRangeError`
is re-raised — escaping the loop, and `run_eval_loop_over_test_splits`
itself — on the `(avail+1)`-th `get_next_padded` call; in particular with
budget `3` and `2` batches the exception escapes on call `3`. -/
theorem claimC1_budgeted_split_run (N avail : Nat) :
    (N ≤ avail → runSplit (N : Int) avail = .finished N false) ∧
    (avail < N → runSplit (N : Int) avail = .raised (avail + 1)) ∧
    (∀ (sp : SplitState), sp.budget = (N : Int) → sp.avail = avail →
      canLoadWrittenOutputs 0 sp.loadResult = false → avail < N →
      runEvalLoopOverTestSplits [sp] = none) ∧
    runSplit (3 : Int) 2 = .raised 3 := by
  refine ⟨?_, ?_, ?_, ?_⟩
  · intro h
    exact runSplitFrom_budget_reached N avail 0 (by omega) (by omega)
  · intro h
    simpa using runSplitFrom_exhausted_pos N avail 0 (by omega)
  · intro sp hb ha hload hlt
    refine runEvalLoop_single_raises sp hload (avail + 1) ?_
    rw [hb, ha]
    simpa using runSplitFrom_exhausted_pos N avail 0 (by omega)
  · simpa using runSplitFrom_exhausted_pos 3 2 0 (by omega)

/-- Witness for C1 at concrete inputs: budget 3 with 5 batches runs exactly
3 batches; budget 3 with 2 batches re-raises on the 3rd call, and the
exception escapes the whole eval loop. -/
theorem claimC1_budgeted_split_run_witness :
    runSplit (3 : Int) 5 = .finished 3 false ∧
    runSplit (3 : Int) 2 = .raised 3 ∧
    runEvalLoopOverTestSplits [⟨none, (3 : Int), 2, false⟩] = none :=
  ⟨(claimC1_budgeted_split_run 3 5).1 (by decide),
   (claimC1_budgeted_split_run 3 2).2.1 (by decide),
   (claimC1_budgeted_split_run 3 2).2.2.1 ⟨none, (3 : Int), 2, false⟩
     rfl rfl (by decide) (by decide)⟩

/-- C2: with budget `-1` the split loop always ends with `reset()` and a
normal return, but the `steps_performed` entry appended by
`run_eval_loop_over_test_splits` is the final `step_num`, which counts the
failed `get_next_padded` call as well: with 2 available batches it records 3,
not the 2 batches actually consumed (the log line in the code itself reports
`step_num - 1`). -/
theorem claimC2_unbudgeted_exhaustion_count :
    (∀ avail : Nat, runSplit (-1 : Int) avail = .finished (avail + 1) true) ∧
    runEvalLoopOverTestSplits [⟨none, (-1 : Int), 2, false⟩] =
      some ⟨[some 2], [none], [3], [3]⟩ := by
  constructor
  · intro avail
    simpa using runSplitFrom_neg (-1) (by omega) avail 0
  · decide

/-- C3: the skip decision is made from the load attempt at host 0 and broadcast, so
every host computes the same answer; and whenever the loop returns, every
split whose outputs could already be loaded contributes `None` metrics,
`None` scoring metrics, `0` performed steps, and zero `get_next_padded`
calls at its position. -/
theorem claimC3_skip_already_written (splits : List SplitState)
    (out : EvalLoopOutput)
    (hrun : runEvalLoopOverTestSplits splits = some out) :
    (∀ (p q : Nat) (lr : Option Nat),
      canLoadWrittenOutputs p lr = canLoadWrittenOutputs q lr) ∧
    ∀ (i : Nat) (sp : SplitState), splits.get? i = some sp →
      canLoadWrittenOutputs 0 sp.loadResult = true →
        out.metricsList.get? i = some none ∧
        out.scoringList.get? i = some none ∧
        out.numEvalSteps.get? i = some 0 ∧
        out.getNextCallsList.get? i = some 0 := by
  refine ⟨fun p q lr => rfl, ?_⟩
  induction splits generalizing out with
  | nil =>
    intro i sp hget
    exact absurd hget (by simp)
  | cons sp0 rest ih =>
    intro i sp hget hload
    cases hcan : canLoadWrittenOutputs 0 sp0.loadResult with
    | false =>
      -- skip check false: this split actually ran
      simp only [runEvalLoopOverTestSplits, hcan, Bool.false_eq_true,
        if_false] at hrun
      cases hsr : runSplit sp0.budget sp0.avail with
      | raised k =>
        rw [hsr] at hrun
        exact absurd hrun (by simp)
      | finished stepNum didReset =>
        rw [hsr] at hrun
        cases hrest : runEvalLoopOverTestSplits rest with
        | none =>
          rw [hrest] at hrun
          exact absurd hrun (by simp)
        | some o =>
          rw [hrest] at hrun
          simp only [Option.some.injEq] at hrun
          subst hrun
          cases i with
          | zero =>
            simp only [List.get?_cons_zero, Option.some.injEq] at hget
            subst hget
            rw [hload] at hcan
            exact absurd hcan (by simp)
          | succ j =>
            simp only [List.get?_cons_succ] at hget
            have := (ih o hrest) j sp hget hload
            simpa using this
    | true =>
      -- skip check true: split skipped with (None, None, 0)
      simp only [runEvalLoopOverTestSplits, hcan, if_true] at hrun
      cases hrest : runEvalLoopOverTestSplits rest with
      | none =>
        rw [hrest] at hrun
        exact absurd hrun (by simp)
      | some o =>
        rw [hrest] at hrun
        simp only [Option.some.injEq] at hrun
        subst hrun
        cases i with
        | zero => exact ⟨rfl, rfl, rfl, rfl⟩
        | succ j =>
          simp only [List.get?_cons_succ] at hget
          have := (ih o hrest) j sp hget hload
          simpa using this

/-- Witness for C3: one split with already-loadable outputs is skipped with
`None` metrics, `None` scoring metrics, zero steps and zero batch fetches. -/
theorem claimC3_skip_already_written_witness :
    ((∀ (p q : Nat) (lr : Option Nat),
        canLoadWrittenOutputs p lr = canLoadWrittenOutputs q lr) ∧
      ∀ (i : Nat) (sp : SplitState),
        ([⟨some 4, (7 : Int), 9, true⟩] : List SplitState).get? i = some sp →
        canLoadWrittenOutputs 0 sp.loadResult = true →
          (EvalLoopOutput.metricsList ⟨[none], [none], [0], [0]⟩).get? i
              = some none ∧
          (EvalLoopOutput.scoringList ⟨[none], [none], [0], [0]⟩).get? i
              = some none ∧
          (EvalLoopOutput.numEvalSteps ⟨[none], [none], [0], [0]⟩).get? i
              = some 0 ∧
          (EvalLoopOutput.getNextCallsList ⟨[none], [none], [0], [0]⟩).get? i
              = some 0) :=
  claimC3_skip_already_written [⟨some 4, (7 : Int), 9, true⟩]
    ⟨[none], [none], [0], [0]⟩ (by decide)

/-- C4 counterexample: the while-loop exits as soon as the polled step merely
*differs* from `last_checkpoint_step`.  With `last_step = 100` and a
checkpoint store reporting step `50`, `wait_for_new_step` returns `50`,
which is not strictly greater than `100`. -/
theorem claimC4_counterexample :
    waitForNewStep (fun _ => some 50) (some 100) 1 = .returned 50 ∧
      ¬ ((50 : Int) > 100) := by
  constructor
  · rfl
  · decide

lemma waitForNewStepFrom_returned (polls : Nat → Option Int) (lastStep : Int) :
    ∀ (fuel k : Nat) (s : Int),
      waitForNewStepFrom polls (some lastStep) k fuel = .returned s →
      s ≠ lastStep ∧
        ∃ j, k ≤ j ∧ j < k + fuel ∧ polls j = some s ∧
          ∀ i, k ≤ i → i < j → polls i = some lastStep := by
  intro fuel
  induction fuel with
  | zero =>
    intro k s h
    exact absurd h (by simp [waitForNewStepFrom])
  | succ f ih =>
    intro k s h
    rw [waitForNewStepFrom] at h
    by_cases hp : polls k = some lastStep
    · rw [if_pos hp] at h
      obtain ⟨hne, j, hkj, hjf, hpj, hfirst⟩ := ih (k + 1) s h
      refine ⟨hne, j, by omega, by omega, hpj, ?_⟩
      intro i hki hij
      rcases Nat.eq_or_lt_of_le hki with hik | hik
      · rw [← hik]; exact hp
      · exact hfirst i hik hij
    · rw [if_neg hp] at h
      cases hpk : polls k with
      | none =>
        rw [hpk] at h
        exact absurd h (by simp)
      | some s' =>
        rw [hpk] at h
        simp only [WaitResult.returned.injEq] at h
        subst h
        refine ⟨?_, k, le_refl k, by omega, hpk, ?_⟩
        · intro hcontra
          exact hp (by rw [hpk, hcontra])
        · intro i hki hik
          omega

/-- C4 (amended): `wait_for_new_step(last_step)` polls until a checkpoint
step *different from* `last_step` appears (not necessarily strictly
greater), and returns the first such polled step; it never returns `None`
(a `None` poll once the loop exits trips the assertion instead of being
returned). -/
theorem claimC4_wait_for_new_step_amended (polls : Nat → Option Int)
    (lastStep : Int) (fuel : Nat) (s : Int)
    (h : waitForNewStep polls (some lastStep) fuel = .returned s) :
    s ≠ lastStep ∧
      ∃ j, j < fuel ∧ polls j = some s ∧
        ∀ i, i < j → polls i = some lastStep := by
  obtain ⟨hne, j, _, hjf, hpj, hfirst⟩ :=
    waitForNewStepFrom_returned polls lastStep fuel 0 s h
  exact ⟨hne, j, by omega, hpj, fun i hij => hfirst i (Nat.zero_le i) hij⟩

/-- Witness for the amended C4: with `last_step = 5` and polls yielding `5`
then `7`, the function returns `7`, the first polled step different from
`5`. -/
theorem claimC4_wait_for_new_step_amended_witness :
    (7 : Int) ≠ 5 ∧
      ∃ j, j < 3 ∧ (fun k => if k = 0 then some (5 : Int) else some 7) j
          = some 7 ∧
        ∀ i, i < j →
          (fun k => if k = 0 then some (5 : Int) else some 7) i = some 5 :=
  claimC4_wait_for_new_step_amended
    (fun k => if k = 0 then some (5 : Int) else some 7) 5 3 7 (by decide)

lemma trackModeMinNeMax : (TrackMode.min = TrackMode.max) = False := by
  simp

lemma runTrackerUpdates_example :
    runTrackerUpdates 0 .min true [5, 3, 4, 2] none =
      (some 2, [true, true, false, true]) := by
  norm_num [runTrackerUpdates, maybeUpdateTrackedMetric, trackerMetricValue,
    trackerInitialValue, floatInfoMax, trackModeMinNeMax]

/-- C5 counterexample: the stored best value of the tracker starts at the
`sys.float_info.max` sentinel, so under a MIN policy the very first value
`5.0` already strictly improves and triggers an effective update.  The
sequence `[5, 3, 4, 2]` therefore produces update flags
`[true, true, false, true]` — three effective updates (at 5, 3 and 2), not
the claimed two — though the final best value is indeed `2`. -/
theorem claimC5_counterexample :
    runTrackerUpdates 0 .min true [5, 3, 4, 2] none =
        (some 2, [true, true, false, true]) ∧
      [true, true, false, true].count true ≠ 2 := by
  exact ⟨runTrackerUpdates_example, by decide⟩

/-- C5 (amended): `_maybe_update_tracked_metric` performs an effective update
(rewriting the stored value, and saving a checkpoint when enabled) exactly
when it runs on host 0 and the new value strictly improves on the current
value under the MIN/MAX policy; under a MIN policy the sequence
`[5, 3, 4, 2]`, starting from an absent status file (sentinel
`sys.float_info.max`), ends with best value `2` after exactly three
effective updates, at `5`, `3` and `2`. -/
theorem claimC5_tracker_strict_improvement_amended :
    (∀ (p : Nat) (v : ℚ) (m : TrackMode) (e : Bool) (st : Option ℚ),
      ((maybeUpdateTrackedMetric p v m e st).didUpdate = true ↔
        (p = 0 ∧ ((m = .min ∧ v < trackerMetricValue m st) ∨
          (m = .max ∧ v > trackerMetricValue m st)))) ∧
      (maybeUpdateTrackedMetric p v m e st).stored =
        (if (maybeUpdateTrackedMetric p v m e st).didUpdate then some v
          else st) ∧
      (maybeUpdateTrackedMetric p v m e st).didSaveCheckpoint =
        ((maybeUpdateTrackedMetric p v m e st).didUpdate && e)) ∧
    runTrackerUpdates 0 .min true [5, 3, 4, 2] none =
      (some 2, [true, true, false, true]) := by
  constructor
  · intro p v m e st
    unfold maybeUpdateTrackedMetric
    by_cases hp : p = 0
    · rw [if_pos hp]
      by_cases himp : (m = .min ∧ v < trackerMetricValue m st) ∨
          (m = .max ∧ v > trackerMetricValue m st)
      · rw [if_pos himp]
        simp [hp, himp]
      · rw [if_neg himp]
        simp [hp, himp]
    · rw [if_neg hp]
      simp [hp]
  · exact runTrackerUpdates_example

lemma lookup_map_value {Acc : Type} (f : String → Acc → Acc) :
    ∀ (m : List (String × Acc)) (k : String) (a : Acc),
      m.lookup k = some a →
      (m.map (fun p => (p.1, f p.1 p.2))).lookup k = some (f k a) := by
  intro m
  induction m with
  | nil =>
    intro k a h
    exact absurd h (by simp)
  | cons p t ih =>
    intro k a h
    cases hk : (k == p.1) with
    | true =>
      simp only [List.lookup, hk] at h
      simp only [List.map, List.lookup, hk]
      injection h with h2
      subst h2
      rw [eq_of_beq hk]
    | false =>
      simp only [List.lookup, hk] at h
      simpa only [List.map, List.lookup, hk] using ih k a h

lemma dictKeys_map_value {Acc : Type} (f : String → Acc → Acc)
    (m : List (String × Acc)) :
    dictKeys (m.map (fun p => (p.1, f p.1 p.2))) = dictKeys m := by
  simp [dictKeys, List.map_map, Function.comp]

/-- C6 counterexample: merging a non-empty map into an *empty* existing map
succeeds even though the key sets differ — the key-set check is skipped when
the existing map is empty (`if metrics:`), so the mismatch error is not
raised for every differing pair. -/
theorem claimC6_counterexample :
    mergeCluMetrics Nat.add [] [("a", 1)] =
        .merged [("a", 1)] ∧
      keySetEq ([] : List (String × Nat)) [("a", 1)] = false := by
  exact ⟨rfl, rfl⟩

/-- C6 (amended): when the existing metrics map is *non-empty*,
`_merge_clu_metrics` requires the two key sets to coincide and raises the
key-mismatch `ValueError` otherwise; with identical key sets it returns the
per-key merge of the two accumulator maps.  When the existing map is empty,
it returns the updated map without any key-set check. -/
theorem claimC6_merge_requires_matching_keys_amended {Acc : Type}
    (accMerge : Acc → Acc → Acc)
    (metrics updatedMetrics : List (String × Acc)) :
    (metrics ≠ [] → keySetEq metrics updatedMetrics = false →
      mergeCluMetrics accMerge metrics updatedMetrics = .raisedValueError) ∧
    (metrics ≠ [] → keySetEq metrics updatedMetrics = true →
      ∃ r, mergeCluMetrics accMerge metrics updatedMetrics = .merged r ∧
        dictKeys r = dictKeys metrics ∧
        ∀ (k : String) (a b : Acc), metrics.lookup k = some a →
          updatedMetrics.lookup k = some b →
          r.lookup k = some (accMerge a b)) ∧
    mergeCluMetrics accMerge [] updatedMetrics = .merged updatedMetrics := by
  refine ⟨?_, ?_, rfl⟩
  · intro hne hks
    unfold mergeCluMetrics
    rw [if_neg (by simpa using hne), if_neg (by simp [hks])]
  · intro hne hks
    refine ⟨metrics.map (fun p =>
      (p.1, match updatedMetrics.lookup p.1 with
            | some b => accMerge p.2 b
            | none => p.2)), ?_, ?_, ?_⟩
    · unfold mergeCluMetrics
      rw [if_neg (by simpa using hne), if_pos (by simp [hks])]
    · have := dictKeys_map_value (fun k a =>
        match updatedMetrics.lookup k with
        | some b => accMerge a b
        | none => a) metrics
      simpa using this
    · intro k a b hma hub
      have h1 := lookup_map_value (fun k a =>
        match updatedMetrics.lookup k with
        | some b => accMerge a b
        | none => a) metrics k a hma
      simp only [] at h1
      rw [hub] at h1
      simpa using h1

/-- Witness for the amended C6 at concrete maps: `{a: 1}` merged with
`{b: 2}` raises the key-mismatch error, while `{a: 1}` merged with `{a: 2}`
merges per key. -/
theorem claimC6_merge_requires_matching_keys_amended_witness :
    mergeCluMetrics Nat.add [("a", 1)] [("b", 2)] = .raisedValueError ∧
    (∃ r, mergeCluMetrics Nat.add [("a", 1)] [("a", 2)] = .merged r ∧
      dictKeys r = dictKeys [("a", 1)] ∧
      ∀ (k : String) (a b : Nat), ([("a", 1)] : List (String × Nat)).lookup k
          = some a →
        ([("a", 2)] : List (String × Nat)).lookup k = some b →
        r.lookup k = some (Nat.add a b)) :=
  ⟨(claimC6_merge_requires_matching_keys_amended Nat.add [("a", 1)]
      [("b", 2)]).1 (by simp) (by decide),
   (claimC6_merge_requires_matching_keys_amended Nat.add [("a", 1)]
      [("a", 2)]).2.1 (by simp) (by decide)⟩

/-- C10: the empty metrics map is a left identity of `_merge_clu_metrics`:
merging any `updated_metrics` into an empty existing map returns
`updated_metrics` unchanged with no key-set check performed, so the
key-mismatch failure can only arise once the existing map is non-empty
(second and later merges). -/
theorem claimC10_empty_metrics_left_identity {Acc : Type}
    (accMerge : Acc → Acc → Acc) (updatedMetrics : List (String × Acc)) :
    mergeCluMetrics accMerge [] updatedMetrics = .merged updatedMetrics := rfl

/-- C7: only the coordinating host (process index 0) performs file-system
writes of evaluation/decode outputs.  On any host with process index other
than 0, all three write sites produce no file-system effects, while the
metrics aggregation that follows each decode write block is computed
identically to host 0 (the guard covers only the write, not the
computation). -/
theorem claimC7_single_writer (p : Nat) (hp : p ≠ 0) :
    (∀ (onlyAgg : Bool) (dir : String) (st n : Nat),
      maybeWriteScoringOutputs p onlyAgg dir st n = []) ∧
    (∀ (onlyAgg : Bool) (d f : String) (n : Nat) (mm : List (String × ℚ)),
      (decodeOncePmapWriteBlock p onlyAgg d f n mm).1 = [] ∧
      (decodeOncePmapWriteBlock p onlyAgg d f n mm).2 =
        (decodeOncePmapWriteBlock 0 onlyAgg d f n mm).2) ∧
    (∀ (d f : String) (n : Nat) (mm : List (String × ℚ)),
      (decodeOnceSpmdWriteBlock p d f n mm).1 = [] ∧
      (decodeOnceSpmdWriteBlock p d f n mm).2 =
        (decodeOnceSpmdWriteBlock 0 d f n mm).2) := by
  refine ⟨?_, ?_, ?_⟩
  · intro onlyAgg dir st n
    simp [maybeWriteScoringOutputs, hp]
  · intro onlyAgg d f n mm
    constructor
    · simp [decodeOncePmapWriteBlock, hp]
    · have h2 : ∀ (q : Nat),
          (decodeOncePmapWriteBlock q onlyAgg d f n mm).2 = mm := by
        intro q
        unfold decodeOncePmapWriteBlock
        split <;> rfl
      rw [h2, h2]
  · intro d f n mm
    constructor
    · simp [decodeOnceSpmdWriteBlock, hp]
    · have h2 : ∀ (q : Nat),
          (decodeOnceSpmdWriteBlock q d f n mm).2 = mm := by
        intro q
        unfold decodeOnceSpmdWriteBlock
        split <;> rfl
      rw [h2, h2]

/-- Witness for C7 at host 1: no write effects at any of the three sites,
with the post-write metrics equal to those at host 0. -/
theorem claimC7_single_writer_witness :
    maybeWriteScoringOutputs 1 false "out" 100 3 = [] ∧
    (decodeOncePmapWriteBlock 1 false "d" "f" 3 [("m", 1)]).1 = [] ∧
    (decodeOncePmapWriteBlock 1 false "d" "f" 3 [("m", 1)]).2 =
      (decodeOncePmapWriteBlock 0 false "d" "f" 3 [("m", 1)]).2 ∧
    (decodeOnceSpmdWriteBlock 1 "d" "f" 3 [("m", 1)]).1 = [] ∧
    (decodeOnceSpmdWriteBlock 1 "d" "f" 3 [("m", 1)]).2 =
      (decodeOnceSpmdWriteBlock 0 "d" "f" 3 [("m", 1)]).2 := by
  obtain ⟨h1, h2, h3⟩ := claimC7_single_writer 1 (by decide)
  exact ⟨h1 false "out" 100 3,
    (h2 false "d" "f" 3 [("m", 1)]).1, (h2 false "d" "f" 3 [("m", 1)]).2,
    (h3 "d" "f" 3 [("m", 1)]).1, (h3 "d" "f" 3 [("m", 1)]).2⟩

/-- C8 counterexample: when no checkpoint step has been found yet
(`last_checkpoint_step is None`) the stop decision — including the
early-stopping predicate — is skipped entirely, so even a predicate that
always demands stopping does not stop the loop: with fuel for two
iterations, the trace shows a second eval run after the first. -/
theorem claimC8_counterexample :
    commonEvalOrDecodeLoop true false 1 10 (fun _ _ => true) (fun _ => 5)
        none 0 2 =
      [.ranEval none, .releasedTrainState, .waitedForNewStep,
        .loadedCheckpoint 5, .ranEval (some 5), .stopped .earlyStopped] ∧
    countEvalRuns (commonEvalOrDecodeLoop true false 1 10 (fun _ _ => true)
      (fun _ => 5) none 0 2) = 2 := by
  exact ⟨rfl, rfl⟩

/-- C8 (amended): the loop stops after exactly one iteration when continuous
mode is off.  In continuous mode with a *known* checkpoint step `s`, the stop
decision fires exactly when the early-stopping predicate returns true or the
checkpoint is final, with finality exactly `s + save_interval >
total_training_steps`; when the checkpoint step is unknown (`None`) the stop
decision (predicate included) is skipped and the loop continues.  Whenever it
continues, the iteration is followed by releasing the model state, waiting
for a new step, and loading the new state, in that order, before the next
iteration; and a stop appends a stop event right after the iteration body. -/
theorem claimC8_loop_control_amended (hasD : Bool) (si n : Int)
    (es : Int → Bool → Bool) (ns : Nat → Int) (last : Option Int)
    (k fuel : Nat) :
    (commonEvalOrDecodeLoop false hasD si n es ns last k (fuel + 1) =
      loopIterationBody hasD last ++ [LoopEvent.stopped .notContinuous]) ∧
    (countEvalRuns
      (commonEvalOrDecodeLoop false hasD si n es ns last k (fuel + 1)) = 1) ∧
    (∀ s : Int, (loopDecide true (some s) si n es).isSome = true ↔
      (es s (isLastCkpt s si n) = true ∨ isLastCkpt s si n = true)) ∧
    (∀ s : Int, isLastCkpt s si n = true ↔ s + si > n) ∧
    (loopDecide true none si n es = none) ∧
    (loopDecide true last si n es = none →
      commonEvalOrDecodeLoop true hasD si n es ns last k (fuel + 1) =
        loopIterationBody hasD last ++
          [LoopEvent.releasedTrainState, LoopEvent.waitedForNewStep,
            LoopEvent.loadedCheckpoint (ns k)] ++
          commonEvalOrDecodeLoop true hasD si n es ns (some (ns k)) (k + 1)
            fuel) ∧
    (∀ why, loopDecide true last si n es = some why →
      commonEvalOrDecodeLoop true hasD si n es ns last k (fuel + 1) =
        loopIterationBody hasD last ++ [LoopEvent.stopped why]) := by
  refine ⟨?_, ?_, ?_, ?_, ?_, ?_, ?_⟩
  · simp [commonEvalOrDecodeLoop, loopDecide]
  · cases hasD <;>
      simp [commonEvalOrDecodeLoop, loopDecide, countEvalRuns,
        loopIterationBody]
  · intro s
    have hd : loopDecide true (some s) si n es =
        (if es s (isLastCkpt s si n) = true then some StopReason.earlyStopped
          else if isLastCkpt s si n = true then some StopReason.lastCheckpoint
          else none) := by
      simp [loopDecide]
    rw [hd]
    by_cases he : es s (isLastCkpt s si n) = true
    · rw [if_pos he]
      simp [he]
    · rw [if_neg he]
      by_cases hl : isLastCkpt s si n = true
      · rw [if_pos hl]
        simp [hl]
      · rw [if_neg hl]
        constructor
        · intro hcontra
          simp at hcontra
        · intro hcontra
          rcases hcontra with hc | hc
          · exact absurd hc he
          · exact absurd hc hl
  · intro s
    simp [isLastCkpt]
  · simp [loopDecide]
  · intro h
    simp only [commonEvalOrDecodeLoop, h]
  · intro why h
    simp only [commonEvalOrDecodeLoop, h]

/-- Witness for the amended C8 at concrete inputs: a non-final step `2` with
a never-stopping predicate continues through release/wait/load, while an
always-stopping predicate stops right after the iteration body. -/
theorem claimC8_loop_control_amended_witness :
    (commonEvalOrDecodeLoop true false 1 10 (fun _ _ => false) (fun _ => 3)
        (some 2) 0 1 =
      loopIterationBody false (some 2) ++
        [LoopEvent.releasedTrainState, LoopEvent.waitedForNewStep,
          LoopEvent.loadedCheckpoint 3] ++
        commonEvalOrDecodeLoop true false 1 10 (fun _ _ => false)
          (fun _ => 3) (some 3) 1 0) ∧
    (commonEvalOrDecodeLoop true false 1 10 (fun _ _ => true) (fun _ => 3)
        (some 2) 0 1 =
      loopIterationBody false (some 2) ++
        [LoopEvent.stopped .earlyStopped]) :=
  ⟨(claimC8_loop_control_amended false 1 10 (fun _ _ => false) (fun _ => 3)
      (some 2) 0 0).2.2.2.2.2.1 (by decide),
   (claimC8_loop_control_amended false 1 10 (fun _ _ => true) (fun _ => 3)
      (some 2) 0 0).2.2.2.2.2.2 .earlyStopped (by decide)⟩

/-- C9: when the tracked metric key is found in a per-split decode metrics
dict but its value is `0.0`, the Python truthiness guard `if m_value:` takes
the else branch: tracking is skipped with the cannot-track log, exactly as
when the key is absent from every dict. -/
theorem claimC9_zero_metric_value_skips_tracking (trackedMetric : String)
    (mm : TrackMode) (dicts : List (List (String × ℚ)))
    (h : findTrackedMetricValue trackedMetric dicts = some 0) :
    findAndMaybeUpdateTrackedMetric trackedMetric (some mm) dicts =
        .loggedCannotTrack ∧
      findAndMaybeUpdateTrackedMetric trackedMetric (some mm) dicts =
        findAndMaybeUpdateTrackedMetric trackedMetric (some mm) [] := by
  constructor <;>
    simp [findAndMaybeUpdateTrackedMetric, h, findTrackedMetricValue]

/-- Witness for C9: the tracked metric `wer` is present with value `0.0` and
tracking is skipped exactly as if it were absent. -/
theorem claimC9_zero_metric_value_skips_tracking_witness :
    findAndMaybeUpdateTrackedMetric "wer" (some .min) [[("wer", 0)]] =
        .loggedCannotTrack ∧
      findAndMaybeUpdateTrackedMetric "wer" (some .min) [[("wer", 0)]] =
        findAndMaybeUpdateTrackedMetric "wer" (some .min) [] :=
  claimC9_zero_metric_value_skips_tracking "wer" .min [[("wer", 0)]]
    (by decide)

end EvalLib
